import Mathlib

/-!
Verification of the workflow orchestration core in
`src/swarm/workflows/outbreak_detection_workflow.py`.

Python dictionaries are embedded as insertion-ordered association lists over a
JSON-like `Value` type; Python exceptions become `Except String`.  Agent action
invocation (`_execute_agent_action`, an awaited call that may raise at runtime)
is abstracted as a parameter `Invoke`; the shipped implementation
`execute_agent_action` is embedded literally and instantiates it via
`invokeDefault`.
-/

set_option maxHeartbeats 1600000

namespace Outbreak

/-- JSON-like values: the payloads stored in Python dicts by the workflow. -/
inductive Value where
  | vNone  : Value
  | vBool  : Bool → Value
  | vInt   : Int → Value
  | vStr   : String → Value
  | vDict  : List (String × Value) → Value
deriving Repr

/-- Dict lookup (Python `d[k]` / membership): first entry with the given key. -/
def dlookup : List (String × Value) → String → Option Value
  | [], _ => none
  | (k, v) :: rest, key => if k == key then some v else dlookup rest key

/-- Python `d[k] = v` on an insertion-ordered dict: replace in place or append. -/
def dset : List (String × Value) → String → Value → List (String × Value)
  | [], k, v => [(k, v)]
  | (k', v') :: rest, k, v =>
      if k' == k then (k, v) :: rest else (k', v') :: dset rest k v

/-- Python `k in d`. -/
def dcontains (d : List (String × Value)) (k : String) : Bool :=
  (dlookup d k).isSome

/-- Python truthiness of a value. -/
def truthy : Value → Bool
  | .vNone => false
  | .vBool b => b
  | .vInt n => n != 0
  | .vStr s => s != ""
  | .vDict d => !d.isEmpty

/-- Python `v.get(k, default)`.  The workflow only ever calls `.get` on dict
values; on a non-dict receiver (where Python would raise `AttributeError`,
a situation the executor never produces) we return the default. -/
def vgetD (v : Value) (k : String) (d : Value) : Value :=
  match v with
  | .vDict l => (dlookup l k).getD d
  | _ => d

/-- Python `v.values()` for a dict value (the executor only applies it to
dicts; a non-dict receiver yields `[]`). -/
def dictValues : Value → List Value
  | .vDict l => l.map Prod.snd
  | _ => []

/-- Whether a value is a Python dict. -/
def Value.isDict : Value → Bool
  | .vDict _ => true
  | _ => false

/-- `charsHasPre pat l`: `pat` is a leading segment of `l`. -/
def charsHasPre : List Char → List Char → Bool
  | [], _ => true
  | _ :: _, [] => false
  | c :: cs, d :: ds => c == d && charsHasPre cs ds

/-- `charsHasSub pat l`: `pat` occurs contiguously inside `l`. -/
def charsHasSub (pat : List Char) : List Char → Bool
  | [] => charsHasPre pat []
  | h :: t => charsHasPre pat (h :: t) || charsHasSub pat t

/-- Python `pat in hay` on strings: substring containment. -/
def strContains (hay pat : String) : Bool :=
  charsHasSub pat.toList hay.toList

/-- An agent as read by the workflow (`agent.outbreak_belief`,
`agent.risk_level`); the orchestrator treats agents as opaque otherwise. -/
structure Agent where
  outbreak_belief : Int
  risk_level : String

/-- The orchestrator as seen by the workflow: its `agents` dict
(insertion-ordered mapping agent-id to agent). -/
structure Orchestrator where
  agents : List (String × Agent)

/-- `WorkflowStep` dataclass (source lines 9-19), with the source defaults. -/
structure WorkflowStep where
  name : String
  description : String
  agent_action : String
  parallel : Bool := false
  timeout : Int := 30
  condition : Option String := none
  depends_on : Option (List String) := none
  agent_selector : Option String := none

/-- The run context: the `results` dict built by `execute` (keys
`workflow`, `trigger_data`, `step_results`) and threaded through every
`_execute_step` call. -/
structure Ctx where
  workflow : String
  trigger_data : Value
  step_results : List (String × Value)

/-- One per-agent entry of the anomaly scan:
`result.get("risk_level") in ["high", "critical"]` (source line 198). -/
def entryHighRisk (v : Value) : Bool :=
  match vgetD v "risk_level" .vNone with
  | .vStr s => s == "high" || s == "critical"
  | _ => false

/-- `_evaluate_condition` (source lines 188-208).  Note the branch tests are
substring containment (Python `in` on strings), and the final branch returns
`True`. -/
def evaluate_condition (condition : String) (context : Ctx) : Bool :=
  if strContains condition "anomaly_detected == true" then
    let step_results := context.step_results
    let local_analysis := (dlookup step_results "local_analysis").getD (.vDict [])
    let parallel_results := vgetD local_analysis "parallel_results" (.vDict [])
    (dictValues parallel_results).any entryHighRisk
  else if strContains condition "consensus_reached == true" then
    let step_results := context.step_results
    let voting := (dlookup step_results "voting").getD (.vDict [])
    truthy (vgetD voting "consensus_reached" (.vBool false))
  else
    true

/-- Python `max(items, key=lambda x: x[1].outbreak_belief)` over a non-empty
list: keeps the first encountered entry among ties (replaces only on a
strictly greater key). -/
def maxByBelief : (String × Agent) → List (String × Agent) → (String × Agent)
  | best, [] => best
  | best, x :: rest =>
      if x.2.outbreak_belief > best.2.outbreak_belief
      then maxByBelief x rest else maxByBelief best rest

/-- `_select_agents` (source lines 154-170).  `max()` on an empty sequence and
`list(...)[0]` on an empty list raise in Python; both become `Except.error`
with the Python message. -/
def select_agents (orch : Option Orchestrator) (step : WorkflowStep) :
    Except String (List (String × Agent)) :=
  match orch with
  | none => .ok []
  | some o =>
    let all_agents := o.agents
    if step.agent_selector = some "max_outbreak_belief" then
      match all_agents with
      | [] => .error "max() arg is an empty sequence"
      | a :: rest => .ok [maxByBelief a rest]
    else if step.agent_selector = some "proposer" then
      match all_agents with
      | [] => .error "list index out of range"
      | a :: _ => .ok [a]
    else
      .ok all_agents

/-- `_execute_agent_action` (source lines 172-186): the action dict returned
for each action identifier.  The `context` argument is accepted and ignored,
as in the source. -/
def execute_agent_action (agent : Agent) (action : String) (_context : Ctx) :
    List (String × Value) :=
  if action == "analyze_symptoms" then
    [("action", .vStr action), ("risk_level", .vStr agent.risk_level)]
  else if action == "query_neighbors" then
    [("action", .vStr action), ("neighbors_queried", .vBool true)]
  else if action == "propose_consensus" then
    [("action", .vStr action), ("proposal_made", .vBool true)]
  else if action == "vote" then
    [("action", .vStr action), ("vote", .vStr "approve")]
  else if action == "escalate_to_quantum" then
    [("action", .vStr action), ("escalated", .vBool true)]
  else
    [("action", .vStr action), ("status", .vStr "completed")]

/-- The invocation boundary: `await self._execute_agent_action(...)`, which at
runtime may raise (modelled as `Except.error` carrying `str(e)`). -/
def Invoke : Type :=
  Agent → String → Ctx → Except String (List (String × Value))

/-- The shipped `_execute_agent_action` never raises. -/
def invokeDefault : Invoke :=
  fun agent action context => .ok (execute_agent_action agent action context)

/-- The condition guard of `_execute_step` (source line 124):
`step.condition and not self._evaluate_condition(...)`.  A `None` or empty
condition string is falsy, so the guard is skipped. -/
def condBlocks (step : WorkflowStep) (context : Ctx) : Bool :=
  match step.condition with
  | some c => c != "" && !(evaluate_condition c context)
  | none => false

/-- The loop of source lines 129-131: first name in `deps` absent from the
recorded step results, if any. -/
def findMissingDep : List String → List (String × Value) → Option String
  | [], _ => none
  | d :: rest, sr => if dcontains sr d then findMissingDep rest sr else some d

/-- The dependency guard of `_execute_step` (source lines 128-131); a `None`
or empty `depends_on` is falsy and checks nothing. -/
def missingDep (step : WorkflowStep) (context : Ctx) : Option String :=
  match step.depends_on with
  | none => none
  | some deps => findMissingDep deps context.step_results

/-- A `{"skipped": True, "reason": ...}` dict (source lines 125 and 131). -/
def skipValue (reason : String) : Value :=
  .vDict [("skipped", .vBool true), ("reason", .vStr reason)]

/-- The value stored for one agent by the parallel loop (source lines
141-145): the invocation's result dict, or `{"error": str(e)}` if it raised. -/
def mkEntry (f : Invoke) (action : String) (context : Ctx)
    (p : String × Agent) : Value :=
  match f p.2 action context with
  | .ok r => .vDict r
  | .error e => .vDict [("error", .vStr e)]

/-- The parallel loop of source lines 139-145: `results = {}` then
`results[agent_id] = ...` per agent, a raising invocation contributing
`{"error": str(e)}` for that agent only. -/
def runParallel (f : Invoke) (agents : List (String × Agent)) (action : String)
    (context : Ctx) : List (String × Value) :=
  agents.foldl (fun acc p => dset acc p.1 (mkEntry f action context p)) []

/-- `_execute_step` (source lines 120-152).  An `Except.error` models a Python
exception escaping to `execute`'s handler (a raising single-mode invocation,
or a raising `_select_agents`). -/
def execute_step (f : Invoke) (orch : Option Orchestrator) (step : WorkflowStep)
    (context : Ctx) : Except String Value :=
  if condBlocks step context then
    .ok (skipValue ("Condition not met: " ++ step.condition.getD ""))
  else
    match missingDep step context with
    | some dep => .ok (skipValue ("Dependency not met: " ++ dep))
    | none =>
      match select_agents orch step with
      | .error e => .error e
      | .ok agents =>
        if step.parallel then
          .ok (.vDict [("parallel_results",
                        .vDict (runParallel f agents step.agent_action context))])
        else
          match agents with
          | [] => .ok (.vDict [("error", .vStr "No agent selected")])
          | (_, agent) :: _ =>
            match f agent step.agent_action context with
            | .ok r => .ok (.vDict r)
            | .error e => .error e

/-- `_should_continue` (source lines 210-216). -/
def should_continue (_step : WorkflowStep) (result : Value) : Bool :=
  if truthy (vgetD result "error" .vNone) then false
  else if truthy (vgetD result "skipped" .vNone) then true
  else true

/-- `results["step_results"][step.name] = v`. -/
def recordStep (c : Ctx) (n : String) (v : Value) : Ctx :=
  { c with step_results := dset c.step_results n v }

/-- The step loop of `execute` (source lines 105-116): on an exception record
`{"error": str(e)}` and break; otherwise record the result and break when
`_should_continue` is false. -/
def executeLoop (f : Invoke) (o : Orchestrator) :
    List WorkflowStep → Ctx → Ctx
  | [], ctx => ctx
  | step :: rest, ctx =>
    match execute_step f (some o) step ctx with
    | .error e => recordStep ctx step.name (.vDict [("error", .vStr e)])
    | .ok res =>
      let ctx' := recordStep ctx step.name res
      if should_continue step res then executeLoop f o rest ctx' else ctx'

/-- The report dict as returned by `execute`: the `results` dict with its
three keys in insertion order. -/
def ctxToDict (c : Ctx) : Value :=
  .vDict [("workflow", .vStr c.workflow),
          ("trigger_data", c.trigger_data),
          ("step_results", .vDict c.step_results)]

/-- `execute` (source lines 91-118), generic in the invocation boundary, the
workflow name and the step list. -/
def executeWith (f : Invoke) (orch : Option Orchestrator) (workflowName : String)
    (steps : List WorkflowStep) (trigger_data : Value) : Value :=
  match orch with
  | none => .vDict [("error", .vStr "Orchestrator not configured")]
  | some o =>
    ctxToDict (executeLoop f o steps
      { workflow := workflowName, trigger_data := trigger_data, step_results := [] })

/-- First built-in step (source lines 38-44). -/
def step_local_analysis : WorkflowStep :=
  { name := "local_analysis",
    description := "Each agent analyzes its local data",
    agent_action := "analyze_symptoms", parallel := true, timeout := 30 }

/-- Second built-in step (source lines 46-53). -/
def step_neighbor_consultation : WorkflowStep :=
  { name := "neighbor_consultation",
    description := "Agents query neighbors if anomaly detected",
    agent_action := "query_neighbors",
    condition := some "anomaly_detected == true", parallel := true, timeout := 60 }

/-- Third built-in step (source lines 55-62). -/
def step_collective_reasoning : WorkflowStep :=
  { name := "collective_reasoning",
    description := "Agents synthesize neighbor responses",
    agent_action := "reason_about_collective_evidence",
    depends_on := some ["neighbor_consultation"], parallel := true, timeout := 45 }

/-- Fourth built-in step (source lines 64-70). -/
def step_consensus_proposal : WorkflowStep :=
  { name := "consensus_proposal",
    description := "Agent with strongest evidence proposes action",
    agent_action := "propose_consensus",
    agent_selector := some "max_outbreak_belief", timeout := 30 }

/-- Fifth built-in step (source lines 72-79). -/
def step_voting : WorkflowStep :=
  { name := "voting",
    description := "All agents vote on proposal",
    agent_action := "vote",
    depends_on := some ["consensus_proposal"], parallel := true, timeout := 60 }

/-- Sixth built-in step (source lines 81-88). -/
def step_quantum_escalation : WorkflowStep :=
  { name := "quantum_escalation",
    description := "Escalate to quantum if consensus reached",
    agent_action := "escalate_to_quantum",
    condition := some "consensus_reached == true",
    agent_selector := some "proposer", timeout := 120 }

/-- `_define_steps` (source lines 35-89): the six built-in steps. -/
def outbreak_steps : List WorkflowStep :=
  [step_local_analysis, step_neighbor_consultation, step_collective_reasoning,
   step_consensus_proposal, step_voting, step_quantum_escalation]

/-- `OutbreakDetectionWorkflow.execute` on the workflow as constructed:
name `outbreak_detection`, the built-in steps, the shipped agent actions. -/
def execute (orch : Option Orchestrator) (trigger_data : Value) : Value :=
  executeWith invokeDefault orch "outbreak_detection" outbreak_steps trigger_data

/-- The step-results mapping produced by a run, for stating properties of the
report without re-extracting it from the report dict. -/
def runSR (f : Invoke) (o : Orchestrator) (workflowName : String)
    (steps : List WorkflowStep) (trigger_data : Value) : List (String × Value) :=
  (executeLoop f o steps
    { workflow := workflowName, trigger_data := trigger_data,
      step_results := [] }).step_results

/-- Whether a per-agent parallel entry is marked as an error: its dict carries
an `error` key (the shape `{"error": str(e)}` produced by source line 145). -/
def hasErrorKey : Value → Bool
  | .vDict l => dcontains l "error"
  | _ => false

/-- Whether the invocation for one agent raises. -/
def invokeErrors (f : Invoke) (action : String) (context : Ctx)
    (p : String × Agent) : Bool :=
  match f p.2 action context with
  | .error _ => true
  | .ok _ => false

/-! Concrete fixtures used by witnesses and counterexamples. -/

/-- A two-step workflow whose first step fails: the `proposer` selector raises
on an empty registry, and the exception is recorded as the step's error. -/
def haltDemoSteps : List WorkflowStep :=
  [{ name := "probe_step", description := "first step, fails",
     agent_action := "propose_consensus", agent_selector := some "proposer" },
   { name := "after_step", description := "declared after the failing step",
     agent_action := "analyze_symptoms", parallel := true }]

/-- A two-step workflow whose first step is skipped (consensus condition with
no recorded voting step evaluates false). -/
def skipDemoSteps : List WorkflowStep :=
  [{ name := "guarded_step", description := "skipped by its condition",
     agent_action := "vote", condition := some "consensus_reached == true",
     parallel := true },
   { name := "after_guard", description := "declared after the skipped step",
     agent_action := "vote", parallel := true }]

/-- An empty run context. -/
def emptyCtx : Ctx :=
  { workflow := "demo", trigger_data := .vNone, step_results := [] }

/-- A step carrying both a (failing) precondition and an unmet dependency. -/
def depCondStep : WorkflowStep :=
  { name := "both_guards", description := "has a condition and a dependency",
    agent_action := "analyze_symptoms",
    condition := some "anomaly_detected == true",
    depends_on := some ["missing_step"], parallel := true }

/-- A step with only an unmet dependency. -/
def depOnlyStep : WorkflowStep :=
  { name := "dep_only", description := "has only a dependency",
    agent_action := "analyze_symptoms",
    depends_on := some ["missing_step"], parallel := true }

/-- A step selecting by `max_outbreak_belief`. -/
def maxSelStep : WorkflowStep :=
  { name := "pick_max", description := "max-belief selection",
    agent_action := "propose_consensus",
    agent_selector := some "max_outbreak_belief" }

/-- A step selecting by `proposer`. -/
def propSelStep : WorkflowStep :=
  { name := "pick_proposer", description := "proposer selection",
    agent_action := "escalate_to_quantum", agent_selector := some "proposer" }

/-- A step with the default all-agents selection. -/
def allSelStep : WorkflowStep :=
  { name := "pick_all", description := "default selection",
    agent_action := "vote", parallel := true }

/-- Two agents that both report a low risk level. -/
def lowRiskOrch : Orchestrator :=
  { agents := [("a1", { outbreak_belief := 1, risk_level := "low" }),
               ("a2", { outbreak_belief := 2, risk_level := "low" })] }

/-- An invocation behaviour that raises exactly for agents whose risk level is
the sentinel `boom`, and otherwise runs the shipped action. -/
def flakyInvoke : Invoke :=
  fun agent action context =>
    if agent.risk_level == "boom" then .error "agent exploded"
    else .ok (execute_agent_action agent action context)

/-- Two agents, the second of which makes `flakyInvoke` raise. -/
def flakyAgents : List (String × Agent) :=
  [("a1", { outbreak_belief := 1, risk_level := "low" }),
   ("a2", { outbreak_belief := 2, risk_level := "boom" })]

/-- Parallel entries where one agent reports a critical risk level. -/
def highEntries : List (String × Value) :=
  [("a1", .vDict [("action", .vStr "analyze_symptoms"),
                  ("risk_level", .vStr "critical")]),
   ("a2", .vDict [("action", .vStr "analyze_symptoms"),
                  ("risk_level", .vStr "low")])]

theorem dlookup_dset_self (sr : List (String × Value)) (k : String) (v : Value) :
    dlookup (dset sr k v) k = some v := by
  induction sr with
  | nil => simp [dset, dlookup]
  | cons p rest ih =>
    obtain ⟨k', v'⟩ := p
    by_cases h : k' = k
    · simp [dset, dlookup, h]
    · simp [dset, dlookup, h, ih]

theorem dlookup_dset_ne (sr : List (String × Value)) (k n : String) (v : Value)
    (h : n ≠ k) : dlookup (dset sr k v) n = dlookup sr n := by
  have hkn : ¬(k = n) := fun hh => h hh.symm
  induction sr with
  | nil => simp [dset, dlookup, hkn]
  | cons p rest ih =>
    obtain ⟨k', v'⟩ := p
    by_cases h' : k' = k
    · subst h'
      simp [dset, dlookup, hkn]
    · simp only [dset]
      rw [if_neg (by simp [h'])]
      by_cases h'' : k' = n
      · simp [dlookup, h'']
      · simp [dlookup, h'', ih]

theorem dlookup_dset_isSome (sr : List (String × Value)) (k n : String) (v : Value)
    (h : (dlookup sr n).isSome = true) :
    (dlookup (dset sr k v) n).isSome = true := by
  by_cases hk : n = k
  · subst hk; simp [dlookup_dset_self]
  · rw [dlookup_dset_ne sr k n v hk]; exact h

theorem executeLoop_workflow (f : Invoke) (o : Orchestrator)
    (steps : List WorkflowStep) (ctx : Ctx) :
    (executeLoop f o steps ctx).workflow = ctx.workflow ∧
      (executeLoop f o steps ctx).trigger_data = ctx.trigger_data := by
  induction steps generalizing ctx with
  | nil => exact ⟨rfl, rfl⟩
  | cons s rest ih =>
    cases hstep : execute_step f (some o) s ctx with
    | error e => simp [executeLoop, hstep, recordStep]
    | ok res =>
      by_cases hc : should_continue s res = true
      · simp only [executeLoop, hstep, hc, if_true]
        exact ih { ctx with step_results := dset ctx.step_results s.name res }
      · simp [executeLoop, hstep, hc, recordStep]

theorem executeLoop_lookup_of_not_mem (f : Invoke) (o : Orchestrator)
    (steps : List WorkflowStep) (ctx : Ctx) (n : String)
    (hn : n ∉ steps.map WorkflowStep.name) :
    dlookup (executeLoop f o steps ctx).step_results n =
      dlookup ctx.step_results n := by
  induction steps generalizing ctx with
  | nil => rfl
  | cons s rest ih =>
    simp only [List.map_cons, List.mem_cons, not_or] at hn
    obtain ⟨hns, hnr⟩ := hn
    cases hstep : execute_step f (some o) s ctx with
    | error e =>
      simp only [executeLoop, hstep, recordStep]
      exact dlookup_dset_ne _ _ _ _ hns
    | ok res =>
      by_cases hc : should_continue s res = true
      · simp only [executeLoop, hstep, hc, if_true]
        rw [ih _ hnr]
        exact dlookup_dset_ne _ _ _ _ hns
      · simp only [executeLoop, hstep, hc, if_false, recordStep]
        exact dlookup_dset_ne _ _ _ _ hns

theorem executeLoop_isSome_mono (f : Invoke) (o : Orchestrator)
    (steps : List WorkflowStep) (ctx : Ctx) (n : String)
    (h : (dlookup ctx.step_results n).isSome = true) :
    (dlookup (executeLoop f o steps ctx).step_results n).isSome = true := by
  induction steps generalizing ctx with
  | nil => exact h
  | cons s rest ih =>
    cases hstep : execute_step f (some o) s ctx with
    | error e =>
      simp only [executeLoop, hstep, recordStep]
      exact dlookup_dset_isSome _ _ _ _ h
    | ok res =>
      by_cases hc : should_continue s res = true
      · simp only [executeLoop, hstep, hc, if_true]
        exact ih _ (dlookup_dset_isSome _ _ _ _ h)
      · simp only [executeLoop, hstep, hc, if_false, recordStep]
        exact dlookup_dset_isSome _ _ _ _ h

theorem loop_halt_after_fail (f : Invoke) (o : Orchestrator) :
    ∀ (steps : List WorkflowStep) (ctx : Ctx),
      (∀ st ∈ steps, dlookup ctx.step_results st.name = none) →
      (steps.map WorkflowStep.name).Nodup →
      ∀ (i j : Fin steps.length), i < j → ∀ v : Value,
        dlookup (executeLoop f o steps ctx).step_results (steps.get i).name
          = some v →
        truthy (vgetD v "error" .vNone) = true →
        dlookup (executeLoop f o steps ctx).step_results (steps.get j).name
          = none := by
  intro steps
  induction steps with
  | nil =>
    intro ctx _ _ i
    exact absurd i.isLt (by simp)
  | cons s rest ih =>
    intro ctx hfresh hnd i j hij v hrec hfail
    simp only [List.map_cons, List.nodup_cons] at hnd
    obtain ⟨hsnotin, hndr⟩ := hnd
    obtain ⟨jv, hj⟩ := j
    obtain ⟨iv, hi⟩ := i
    cases jv with
    | zero => exact absurd (Fin.mk_lt_mk.mp hij) (by omega)
    | succ jv' =>
      have hj' : jv' < rest.length := Nat.lt_of_succ_lt_succ hj
      have hjget : (s :: rest).get ⟨jv' + 1, hj⟩ = rest.get ⟨jv', hj'⟩ := rfl
      have hjmem : rest.get ⟨jv', hj'⟩ ∈ rest := List.get_mem rest _ _
      have hjname_ne : (rest.get ⟨jv', hj'⟩).name ≠ s.name := by
        intro hh
        exact hsnotin (hh ▸ List.mem_map_of_mem WorkflowStep.name hjmem)
      have hjfresh : dlookup ctx.step_results (rest.get ⟨jv', hj'⟩).name = none :=
        hfresh _ (List.mem_cons_of_mem s hjmem)
      cases hstep : execute_step f (some o) s ctx with
      | error e =>
        simp only [executeLoop, hstep, recordStep]
        rw [hjget, dlookup_dset_ne _ _ _ _ hjname_ne]
        exact hjfresh
      | ok res =>
        by_cases hc : should_continue s res = true
        · have hloop : executeLoop f o (s :: rest) ctx =
              executeLoop f o rest (recordStep ctx s.name res) := by
            simp [executeLoop, hstep, hc]
          cases iv with
          | zero =>
            have hget0 : (s :: rest).get ⟨0, hi⟩ = s := rfl
            rw [hloop, hget0] at hrec
            rw [executeLoop_lookup_of_not_mem f o rest _ s.name hsnotin] at hrec
            simp only [recordStep] at hrec
            rw [dlookup_dset_self] at hrec
            injection hrec with hrec
            subst hrec
            simp only [should_continue, hfail, if_true] at hc
            exact absurd hc Bool.false_ne_true
          | succ iv' =>
            have hi' : iv' < rest.length := Nat.lt_of_succ_lt_succ hi
            have higet : (s :: rest).get ⟨iv' + 1, hi⟩ = rest.get ⟨iv', hi'⟩ := rfl
            rw [hloop, higet] at hrec
            rw [hloop, hjget]
            have hfresh' : ∀ st ∈ rest,
                dlookup (recordStep ctx s.name res).step_results st.name = none := by
              intro st hst
              have hne : st.name ≠ s.name := by
                intro hh
                exact hsnotin (hh ▸ List.mem_map_of_mem WorkflowStep.name hst)
              simp only [recordStep]
              rw [dlookup_dset_ne _ _ _ _ hne]
              exact hfresh st (List.mem_cons_of_mem s hst)
            have hij' : (⟨iv', hi'⟩ : Fin rest.length) < ⟨jv', hj'⟩ :=
              Fin.mk_lt_mk.mpr (Nat.lt_of_succ_lt_succ (Fin.mk_lt_mk.mp hij))
            exact ih _ hfresh' hndr ⟨iv', hi'⟩ ⟨jv', hj'⟩ hij' v hrec hfail
        · have hloop : executeLoop f o (s :: rest) ctx = recordStep ctx s.name res := by
            simp [executeLoop, hstep, hc]
          rw [hloop, hjget]
          simp only [recordStep]
          rw [dlookup_dset_ne _ _ _ _ hjname_ne]
          exact hjfresh

theorem executeLoop_head_isSome (f : Invoke) (o : Orchestrator)
    (s : WorkflowStep) (rest : List WorkflowStep) (ctx : Ctx) :
    (dlookup (executeLoop f o (s :: rest) ctx).step_results s.name).isSome
      = true := by
  cases hstep : execute_step f (some o) s ctx with
  | error e =>
    simp [executeLoop, hstep, recordStep, dlookup_dset_self]
  | ok res =>
    by_cases hc : should_continue s res = true
    · simp only [executeLoop, hstep, hc, if_true]
      apply executeLoop_isSome_mono
      simp [recordStep, dlookup_dset_self]
    · simp [executeLoop, hstep, hc, recordStep, dlookup_dset_self]

theorem loop_skip_continues (f : Invoke) (o : Orchestrator) :
    ∀ (steps : List WorkflowStep) (ctx : Ctx),
      (∀ st ∈ steps, dlookup ctx.step_results st.name = none) →
      (steps.map WorkflowStep.name).Nodup →
      ∀ (i : Fin steps.length) (hlt : i.1 + 1 < steps.length) (v : Value),
        dlookup (executeLoop f o steps ctx).step_results (steps.get i).name
          = some v →
        truthy (vgetD v "skipped" .vNone) = true →
        truthy (vgetD v "error" .vNone) = false →
        (dlookup (executeLoop f o steps ctx).step_results
          (steps.get ⟨i.1 + 1, hlt⟩).name).isSome = true := by
  intro steps
  induction steps with
  | nil =>
    intro ctx _ _ i
    exact absurd i.isLt (by simp)
  | cons s rest ih =>
    intro ctx hfresh hnd i hlt v hrec hskip hnoerr
    simp only [List.map_cons, List.nodup_cons] at hnd
    obtain ⟨hsnotin, hndr⟩ := hnd
    obtain ⟨iv, hi⟩ := i
    have hfresh' : ∀ (w : Value) (st : WorkflowStep), st ∈ rest →
        dlookup (recordStep ctx s.name w).step_results st.name = none := by
      intro w st hst
      have hne : st.name ≠ s.name := by
        intro hh
        exact hsnotin (hh ▸ List.mem_map_of_mem WorkflowStep.name hst)
      simp only [recordStep]
      rw [dlookup_dset_ne _ _ _ _ hne]
      exact hfresh st (List.mem_cons_of_mem s hst)
    cases hstep : execute_step f (some o) s ctx with
    | error e =>
      have hloop : executeLoop f o (s :: rest) ctx =
          recordStep ctx s.name (.vDict [("error", .vStr e)]) := by
        simp [executeLoop, hstep]
      cases iv with
      | zero =>
        have hget0 : (s :: rest).get ⟨0, hi⟩ = s := rfl
        rw [hloop, hget0] at hrec
        simp only [recordStep] at hrec
        rw [dlookup_dset_self] at hrec
        injection hrec with hrec
        rw [← hrec] at hskip
        simp [vgetD, dlookup, truthy] at hskip
      | succ iv' =>
        have hi' : iv' < rest.length := Nat.lt_of_succ_lt_succ hi
        have higet : (s :: rest).get ⟨iv' + 1, hi⟩ = rest.get ⟨iv', hi'⟩ := rfl
        rw [hloop, higet] at hrec
        rw [hfresh' _ _ (List.get_mem rest _ _)] at hrec
        exact absurd hrec (by simp)
    | ok res =>
      by_cases hc : should_continue s res = true
      · have hloop : executeLoop f o (s :: rest) ctx =
            executeLoop f o rest (recordStep ctx s.name res) := by
          simp [executeLoop, hstep, hc]
        cases iv with
        | zero =>
          rw [hloop]
          cases rest with
          | nil => simp at hlt
          | cons r0 rest' =>
            have hjget : (s :: r0 :: rest').get ⟨0 + 1, hlt⟩ = r0 := rfl
            rw [hjget]
            exact executeLoop_head_isSome f o r0 rest' _
        | succ iv' =>
          have hi' : iv' < rest.length := Nat.lt_of_succ_lt_succ hi
          have hlt' : iv' + 1 < rest.length := Nat.lt_of_succ_lt_succ hlt
          have higet : (s :: rest).get ⟨iv' + 1, hi⟩ = rest.get ⟨iv', hi'⟩ := rfl
          have hjget : (s :: rest).get ⟨iv' + 1 + 1, hlt⟩ = rest.get ⟨iv' + 1, hlt'⟩ := rfl
          rw [hloop, higet] at hrec
          rw [hloop, hjget]
          exact ih _ (fun st hst => hfresh' res st hst) hndr ⟨iv', hi'⟩ hlt' v hrec hskip hnoerr
      · have hloop : executeLoop f o (s :: rest) ctx = recordStep ctx s.name res := by
          simp [executeLoop, hstep, hc]
        cases iv with
        | zero =>
          have hget0 : (s :: rest).get ⟨0, hi⟩ = s := rfl
          rw [hloop, hget0] at hrec
          simp only [recordStep] at hrec
          rw [dlookup_dset_self] at hrec
          injection hrec with hrec
          rw [← hrec] at hnoerr
          simp only [should_continue, hnoerr, if_false] at hc
          by_cases hsk : truthy (vgetD res "skipped" Value.vNone) = true
          · simp [hsk] at hc
          · simp [hsk] at hc
        | succ iv' =>
          have hi' : iv' < rest.length := Nat.lt_of_succ_lt_succ hi
          have higet : (s :: rest).get ⟨iv' + 1, hi⟩ = rest.get ⟨iv', hi'⟩ := rfl
          rw [hloop, higet] at hrec
          rw [hfresh' _ _ (List.get_mem rest _ _)] at hrec
          exact absurd hrec (by simp)

theorem dset_eq_append (acc : List (String × Value)) (k : String) (v : Value)
    (h : dlookup acc k = none) : dset acc k v = acc ++ [(k, v)] := by
  induction acc with
  | nil => rfl
  | cons p rest ih =>
    obtain ⟨k', v'⟩ := p
    by_cases hk : k' = k
    · subst hk
      simp [dlookup] at h
    · simp only [dlookup] at h
      rw [if_neg (by simp [hk])] at h
      simp only [dset]
      rw [if_neg (by simp [hk])]
      simp [ih h]

theorem dlookup_append_of_none (l1 l2 : List (String × Value)) (k : String)
    (h : dlookup l1 k = none) : dlookup (l1 ++ l2) k = dlookup l2 k := by
  induction l1 with
  | nil => rfl
  | cons p rest ih =>
    obtain ⟨k', v'⟩ := p
    by_cases hk : k' = k
    · subst hk
      simp [dlookup] at h
    · simp only [dlookup] at h ⊢
      rw [if_neg (by simp [hk])] at h ⊢
      exact ih h

theorem foldl_dset_eq_append (f : Invoke) (action : String) (ctx : Ctx) :
    ∀ (agents : List (String × Agent)) (acc : List (String × Value)),
      (agents.map Prod.fst).Nodup →
      (∀ p ∈ agents, dlookup acc p.1 = none) →
      agents.foldl (fun a p => dset a p.1 (mkEntry f action ctx p)) acc
        = acc ++ agents.map (fun p => (p.1, mkEntry f action ctx p)) := by
  intro agents
  induction agents with
  | nil => intro acc _ _; simp
  | cons p rest ih =>
    intro acc hnd hacc
    simp only [List.map_cons, List.nodup_cons] at hnd
    obtain ⟨hp1, hndr⟩ := hnd
    have hset : dset acc p.1 (mkEntry f action ctx p) = acc ++ [(p.1, mkEntry f action ctx p)] :=
      dset_eq_append acc p.1 _ (hacc p (List.mem_cons_self p rest))
    have hacc' : ∀ q ∈ rest, dlookup (acc ++ [(p.1, mkEntry f action ctx p)]) q.1 = none := by
      intro q hq
      have hne : ¬(p.1 = q.1) := by
        intro hh
        exact hp1 (hh ▸ List.mem_map_of_mem Prod.fst hq)
      rw [dlookup_append_of_none _ _ _ (hacc q (List.mem_cons_of_mem p hq))]
      simp [dlookup, hne]
    simp only [List.foldl_cons, hset]
    rw [ih _ hndr hacc']
    simp

theorem runParallel_eq_map (f : Invoke) (agents : List (String × Agent))
    (action : String) (ctx : Ctx) (hnd : (agents.map Prod.fst).Nodup) :
    runParallel f agents action ctx
      = agents.map (fun p => (p.1, mkEntry f action ctx p)) := by
  have h := foldl_dset_eq_append f action ctx agents [] hnd (fun p _ => rfl)
  simpa [runParallel] using h

theorem mem_dset (acc : List (String × Value)) (k : String) (v : Value)
    (q : String × Value) (hq : q ∈ dset acc k v) : q.2 = v ∨ q ∈ acc := by
  induction acc with
  | nil =>
    simp only [dset, List.mem_singleton] at hq
    subst hq
    exact Or.inl rfl
  | cons p rest ih =>
    obtain ⟨k', v'⟩ := p
    simp only [dset] at hq
    by_cases hk : (k' == k) = true
    · rw [if_pos hk] at hq
      rcases List.mem_cons.mp hq with h | h
      · subst h; exact Or.inl rfl
      · exact Or.inr (List.mem_cons_of_mem _ h)
    · rw [if_neg hk] at hq
      rcases List.mem_cons.mp hq with h | h
      · subst h; exact Or.inr (List.mem_cons_self _ _)
      · rcases ih h with h' | h'
        · exact Or.inl h'
        · exact Or.inr (List.mem_cons_of_mem _ h')

theorem runParallel_values (f : Invoke) (action : String) (ctx : Ctx)
    (P : Value → Prop) (hP : ∀ p : String × Agent, P (mkEntry f action ctx p)) :
    ∀ (agents : List (String × Agent)) (q : String × Value),
      q ∈ runParallel f agents action ctx → P q.2 := by
  have haux : ∀ (agents : List (String × Agent)) (acc : List (String × Value)),
      (∀ q ∈ acc, P q.2) →
      ∀ q ∈ agents.foldl (fun a p => dset a p.1 (mkEntry f action ctx p)) acc,
        P q.2 := by
    intro agents
    induction agents with
    | nil => intro acc hacc q hq; exact hacc q hq
    | cons p rest ih =>
      intro acc hacc q hq
      simp only [List.foldl_cons] at hq
      refine ih _ ?_ q hq
      intro r hr
      rcases mem_dset _ _ _ _ hr with h | h
      · rw [h]; exact hP p
      · exact hacc r h
  intro agents q hq
  exact haux agents [] (by intro r hr; simp at hr) q hq

theorem countP_add_countP_not {α : Type} (p : α → Bool) :
    ∀ l : List α, l.countP p + l.countP (fun a => !p a) = l.length := by
  intro l
  induction l with
  | nil => rfl
  | cons a t ih =>
    simp only [List.countP_cons]
    cases h : p a <;> simp [h] <;> omega

/-! ## Claims -/

/-- C1 counterexample: with the orchestrator not configured, `execute` returns
`{"error": "Orchestrator not configured"}`, a report that contains none of the
`workflow`, `trigger_data` and `step_results` fields — so the claim, which
covers the unconfigured case as well, is false. -/
theorem execute_unconfigured_report_incomplete :
    execute none (.vStr "probe")
        = .vDict [("error", .vStr "Orchestrator not configured")]
      ∧ dcontains [("error", Value.vStr "Orchestrator not configured")]
          "step_results" = false
      ∧ dcontains [("error", Value.vStr "Orchestrator not configured")]
          "workflow" = false
      ∧ dcontains [("error", Value.vStr "Orchestrator not configured")]
          "trigger_data" = false :=
  ⟨rfl, rfl, rfl, rfl⟩

/-- C1 (amended): with the orchestrator configured, `execute` always returns
normally, and the report carries the workflow name, the unmodified trigger
payload and the accumulated step-results mapping, for every invocation
behaviour (including raising ones) and every step list; all failure is inside
`step_results`.  Without an orchestrator it returns the bare
`{"error": "Orchestrator not configured"}` dict instead. -/
theorem execute_configured_report_complete (f : Invoke) (o : Orchestrator)
    (wf : String) (steps : List WorkflowStep) (trigger : Value) :
    executeWith f (some o) wf steps trigger =
      .vDict [("workflow", .vStr wf), ("trigger_data", trigger),
              ("step_results", .vDict (runSR f o wf steps trigger))] := by
  have h := executeLoop_workflow f o steps
    { workflow := wf, trigger_data := trigger, step_results := [] }
  simp only [executeWith, ctxToDict, runSR]
  rw [h.1, h.2]

/-- C2: in every run, a recorded step outcome whose `error` field is truthy
halts the run — no step declared after it appears in the step results; and a
recorded `Skipped` outcome (truthy `skipped`, no truthy `error`) never halts —
the next declared step is always recorded as well.  Step names are assumed
unique, the construction-time invariant of the workflow. -/
theorem failed_step_halts_and_skip_continues (f : Invoke) (o : Orchestrator)
    (wf : String) (steps : List WorkflowStep) (trigger : Value)
    (hnd : (steps.map WorkflowStep.name).Nodup) :
    (∀ (i j : Fin steps.length), i < j → ∀ v : Value,
       dlookup (runSR f o wf steps trigger) (steps.get i).name = some v →
       truthy (vgetD v "error" .vNone) = true →
       dlookup (runSR f o wf steps trigger) (steps.get j).name = none) ∧
    (∀ (i : Fin steps.length) (hlt : i.1 + 1 < steps.length) (v : Value),
       dlookup (runSR f o wf steps trigger) (steps.get i).name = some v →
       truthy (vgetD v "skipped" .vNone) = true →
       truthy (vgetD v "error" .vNone) = false →
       (dlookup (runSR f o wf steps trigger)
         (steps.get ⟨i.1 + 1, hlt⟩).name).isSome = true) := by
  constructor
  · intro i j hij v hrec hfail
    exact loop_halt_after_fail f o steps
      { workflow := wf, trigger_data := trigger, step_results := [] }
      (fun st _ => rfl) hnd i j hij v hrec hfail
  · intro i hlt v hrec hskip hnoerr
    exact loop_skip_continues f o steps
      { workflow := wf, trigger_data := trigger, step_results := [] }
      (fun st _ => rfl) hnd i hlt v hrec hskip hnoerr

/-- C2 witness: a failing first step leaves the second step unrecorded, and a
skipped first step leaves the second step recorded. -/
theorem failed_step_halts_and_skip_continues_witness :
    dlookup (runSR invokeDefault ⟨[]⟩ "demo" haltDemoSteps .vNone)
        "after_step" = none ∧
    (dlookup (runSR invokeDefault ⟨[]⟩ "demo" skipDemoSteps .vNone)
        "after_guard").isSome = true := by
  constructor
  · exact (failed_step_halts_and_skip_continues invokeDefault ⟨[]⟩ "demo"
      haltDemoSteps .vNone (by decide)).1 ⟨0, by decide⟩ ⟨1, by decide⟩
      (by decide) (.vDict [("error", .vStr "list index out of range")]) rfl rfl
  · exact (failed_step_halts_and_skip_continues invokeDefault ⟨[]⟩ "demo"
      skipDemoSteps .vNone (by decide)).2 ⟨0, by decide⟩ (by decide)
      (skipValue "Condition not met: consensus_reached == true") rfl rfl rfl

/-- C3: a parallel step over N selected agents where exactly one invocation
raises records a `parallel_results` mapping of exactly N entries — exactly
one carrying an `error` key and N−1 normal — the step outcome itself is not
`Failed`, and `_should_continue` lets the run proceed. -/
theorem parallel_single_error_isolated (f : Invoke) (orch : Option Orchestrator)
    (step : WorkflowStep) (ctx : Ctx) (agents : List (String × Agent))
    (hcond : condBlocks step ctx = false) (hdep : missingDep step ctx = none)
    (hsel : select_agents orch step = .ok agents) (hpar : step.parallel = true)
    (hnd : (agents.map Prod.fst).Nodup)
    (hone : agents.countP (invokeErrors f step.agent_action ctx) = 1)
    (hok : ∀ p ∈ agents, invokeErrors f step.agent_action ctx p = false →
             hasErrorKey (mkEntry f step.agent_action ctx p) = false) :
    execute_step f orch step ctx =
      .ok (.vDict [("parallel_results",
                    .vDict (runParallel f agents step.agent_action ctx))]) ∧
    (runParallel f agents step.agent_action ctx).length = agents.length ∧
    (runParallel f agents step.agent_action ctx).countP
      (fun q => hasErrorKey q.2) = 1 ∧
    (runParallel f agents step.agent_action ctx).countP
      (fun q => !hasErrorKey q.2) = agents.length - 1 ∧
    should_continue step
      (.vDict [("parallel_results",
                .vDict (runParallel f agents step.agent_action ctx))]) = true := by
  have hmap := runParallel_eq_map f agents step.agent_action ctx hnd
  have hpointwise : ∀ p ∈ agents,
      hasErrorKey (mkEntry f step.agent_action ctx p)
        = invokeErrors f step.agent_action ctx p := by
    intro p hp
    cases hinv : f p.2 step.agent_action ctx with
    | error e =>
      simp [mkEntry, hasErrorKey, invokeErrors, hinv, dcontains, dlookup]
    | ok r =>
      have h1 : invokeErrors f step.agent_action ctx p = false := by
        simp [invokeErrors, hinv]
      rw [h1]
      exact hok p hp h1
  have hcount : (runParallel f agents step.agent_action ctx).countP
      (fun q => hasErrorKey q.2) = 1 := by
    rw [hmap, List.countP_map]
    rw [List.countP_congr (by
      intro p hp
      simp only [Function.comp]
      rw [hpointwise p hp])]
    exact hone
  have hlen : (runParallel f agents step.agent_action ctx).length = agents.length := by
    rw [hmap, List.length_map]
  refine ⟨?_, hlen, hcount, ?_, ?_⟩
  · simp [execute_step, hcond, hdep, hsel, hpar]
  · have hsum := countP_add_countP_not (fun q : String × Value => hasErrorKey q.2)
      (runParallel f agents step.agent_action ctx)
    rw [hcount, hlen] at hsum
    omega
  · rfl

/-- C3 witness: two flaky-invoked agents, one raising — two entries, one
error entry, one normal, and the run continues. -/
theorem parallel_single_error_isolated_witness :
    execute_step flakyInvoke (some { agents := flakyAgents }) step_local_analysis
        emptyCtx
      = .ok (.vDict [("parallel_results",
          .vDict (runParallel flakyInvoke flakyAgents "analyze_symptoms" emptyCtx))]) ∧
    (runParallel flakyInvoke flakyAgents "analyze_symptoms" emptyCtx).length = 2 ∧
    (runParallel flakyInvoke flakyAgents "analyze_symptoms" emptyCtx).countP
      (fun q => hasErrorKey q.2) = 1 ∧
    (runParallel flakyInvoke flakyAgents "analyze_symptoms" emptyCtx).countP
      (fun q => !hasErrorKey q.2) = 1 ∧
    should_continue step_local_analysis
      (.vDict [("parallel_results",
        .vDict (runParallel flakyInvoke flakyAgents "analyze_symptoms" emptyCtx))])
      = true := by
  have h := parallel_single_error_isolated flakyInvoke (some { agents := flakyAgents })
    step_local_analysis emptyCtx flakyAgents rfl rfl rfl rfl
    (by decide) (by decide) (by decide)
  exact ⟨h.1, h.2.1, h.2.2.1, h.2.2.2.1, h.2.2.2.2⟩

/-- C4 counterexample: a step with a failing precondition and an unmet
dependency is recorded as skipped for the condition, not the dependency — the
condition check runs first, contradicting the claimed order. -/
theorem condition_checked_before_dependency_counterexample :
    execute_step invokeDefault (some { agents := [] }) depCondStep emptyCtx
        = .ok (skipValue "Condition not met: anomaly_detected == true") ∧
    ¬(execute_step invokeDefault (some { agents := [] }) depCondStep emptyCtx
        = .ok (skipValue "Dependency not met: missing_step")) := by
  refine ⟨rfl, fun h => ?_⟩
  have h' := (show execute_step invokeDefault (some { agents := [] }) depCondStep
      emptyCtx = .ok (skipValue "Condition not met: anomaly_detected == true")
    from rfl).symm.trans h
  simp [skipValue] at h'

/-- C4 (amended): the condition check runs before the dependency check — a
blocking precondition skips the step with the condition reason; only when the
condition does not block is a missing dependency reported, as a skip naming
the first missing dependency (the action is not executed in either case). -/
theorem dependency_skip_when_condition_passes (f : Invoke)
    (orch : Option Orchestrator) (step : WorkflowStep) (ctx : Ctx) :
    (condBlocks step ctx = true →
       execute_step f orch step ctx
         = .ok (skipValue ("Condition not met: " ++ step.condition.getD ""))) ∧
    (∀ d, condBlocks step ctx = false → missingDep step ctx = some d →
       execute_step f orch step ctx
         = .ok (skipValue ("Dependency not met: " ++ d))) := by
  constructor
  · intro h
    simp [execute_step, h]
  · intro d h hd
    simp [execute_step, h, hd]

/-- C4 witness: the failing precondition masks the missing dependency, and a
condition-free step with the same missing dependency reports it. -/
theorem dependency_skip_when_condition_passes_witness :
    execute_step invokeDefault (some { agents := [] }) depCondStep emptyCtx
        = .ok (skipValue ("Condition not met: " ++ "anomaly_detected == true")) ∧
    execute_step invokeDefault (some { agents := [] }) depOnlyStep emptyCtx
        = .ok (skipValue ("Dependency not met: " ++ "missing_step")) := by
  constructor
  · exact (dependency_skip_when_condition_passes invokeDefault
      (some { agents := [] }) depCondStep emptyCtx).1 rfl
  · exact (dependency_skip_when_condition_passes invokeDefault
      (some { agents := [] }) depOnlyStep emptyCtx).2 "missing_step" rfl rfl

/-- C5 counterexample: `max_outbreak_belief` selection on an empty registry
raises (Python `max() arg is an empty sequence`) instead of yielding an empty
mapping, so selection is not error-free for every strategy. -/
theorem select_agents_empty_registry_counterexample :
    select_agents (some { agents := [] }) maxSelStep
        = .error "max() arg is an empty sequence" ∧
    ¬(select_agents (some { agents := [] }) maxSelStep = .ok []) := by
  refine ⟨rfl, fun h => ?_⟩
  have h' := (show select_agents (some { agents := [] }) maxSelStep
      = .error "max() arg is an empty sequence" from rfl).symm.trans h
  simp at h'

/-- C5 (amended): on an empty registry the default all-agents strategy yields
an empty mapping, but the `max_outbreak_belief` and `proposer` strategies
raise (`ValueError` / `IndexError`), which the executor later converts into a
recorded step failure. -/
theorem select_agents_empty_registry (step : WorkflowStep) :
    (step.agent_selector = some "max_outbreak_belief" →
       select_agents (some { agents := [] }) step
         = .error "max() arg is an empty sequence") ∧
    (step.agent_selector = some "proposer" →
       select_agents (some { agents := [] }) step
         = .error "list index out of range") ∧
    (step.agent_selector ≠ some "max_outbreak_belief" →
     step.agent_selector ≠ some "proposer" →
       select_agents (some { agents := [] }) step = .ok []) := by
  refine ⟨fun h => ?_, fun h => ?_, fun h1 h2 => ?_⟩
  · simp [select_agents, h]
  · simp [select_agents, h]
  · simp [select_agents, h1, h2]

/-- C5 witness: the three strategies evaluated against the empty registry. -/
theorem select_agents_empty_registry_witness :
    select_agents (some { agents := [] }) maxSelStep
        = .error "max() arg is an empty sequence" ∧
    select_agents (some { agents := [] }) propSelStep
        = .error "list index out of range" ∧
    select_agents (some { agents := [] }) allSelStep = .ok [] := by
  refine ⟨(select_agents_empty_registry maxSelStep).1 rfl,
          (select_agents_empty_registry propSelStep).2.1 rfl,
          (select_agents_empty_registry allSelStep).2.2 (by decide) (by decide)⟩

theorem entryHighRisk_iff (v : Value) :
    entryHighRisk v = true ↔
      vgetD v "risk_level" .vNone = .vStr "high" ∨
      vgetD v "risk_level" .vNone = .vStr "critical" := by
  unfold entryHighRisk
  cases h : vgetD v "risk_level" .vNone <;> simp

/-- C7: the anomaly predicate is true exactly when some recorded
`local_analysis` parallel entry reports a `high` or `critical` risk level;
with `local_analysis` absent from the context it is false, never an error. -/
theorem anomaly_predicate_characterization :
    (∀ (wf : String) (trig : Value) (sr : List (String × Value)),
       dlookup sr "local_analysis" = none →
       evaluate_condition "anomaly_detected == true"
         { workflow := wf, trigger_data := trig, step_results := sr } = false) ∧
    (∀ (wf : String) (trig : Value) (sr : List (String × Value))
       (entries : List (String × Value)),
       dlookup sr "local_analysis"
         = some (.vDict [("parallel_results", .vDict entries)]) →
       (∀ p ∈ entries, Value.isDict p.2 = true) →
       (evaluate_condition "anomaly_detected == true"
          { workflow := wf, trigger_data := trig, step_results := sr } = true ↔
        ∃ p ∈ entries,
          vgetD p.2 "risk_level" .vNone = .vStr "high" ∨
          vgetD p.2 "risk_level" .vNone = .vStr "critical")) := by
  constructor
  · intro wf trig sr h
    show (dictValues (vgetD ((dlookup sr "local_analysis").getD (.vDict []))
      "parallel_results" (.vDict []))).any entryHighRisk = false
    rw [h]
    rfl
  · intro wf trig sr entries h _hdict
    show (dictValues (vgetD ((dlookup sr "local_analysis").getD (.vDict []))
      "parallel_results" (.vDict []))).any entryHighRisk = true ↔ _
    rw [h]
    show (entries.map Prod.snd).any entryHighRisk = true ↔ _
    constructor
    · intro hany
      rcases List.any_eq_true.mp hany with ⟨a, ha, hhigh⟩
      rcases List.mem_map.mp ha with ⟨p, hp, hpa⟩
      rw [← hpa] at hhigh
      exact ⟨p, hp, (entryHighRisk_iff p.2).mp hhigh⟩
    · rintro ⟨p, hp, hd⟩
      exact List.any_eq_true.mpr ⟨p.2, List.mem_map_of_mem Prod.snd hp,
        (entryHighRisk_iff p.2).mpr hd⟩

/-- C7 witness: absent `local_analysis` gives false; one critical entry gives
true. -/
theorem anomaly_predicate_characterization_witness :
    evaluate_condition "anomaly_detected == true" emptyCtx = false ∧
    evaluate_condition "anomaly_detected == true"
      { workflow := "demo", trigger_data := .vNone,
        step_results := [("local_analysis",
          .vDict [("parallel_results", .vDict highEntries)])] } = true := by
  constructor
  · exact anomaly_predicate_characterization.1 "demo" .vNone [] rfl
  · exact (anomaly_predicate_characterization.2 "demo" .vNone
      [("local_analysis", .vDict [("parallel_results", .vDict highEntries)])]
      highEntries rfl (by simp [highEntries, Value.isDict])).mpr
      ⟨("a1", .vDict [("action", .vStr "analyze_symptoms"),
                      ("risk_level", .vStr "critical")]),
       List.mem_cons_self _ _, Or.inr rfl⟩

/-- C8 counterexample: a condition string that is not one of the two known
predicate strings but contains one as a substring takes the anomaly branch and
evaluates to false on an empty context, so an unrecognized expression is not
always fail-open true as claimed. -/
theorem unknown_condition_fail_open_counterexample :
    ¬("checked anomaly_detected == true checked" = "anomaly_detected == true") ∧
    ¬("checked anomaly_detected == true checked" = "consensus_reached == true") ∧
    evaluate_condition "checked anomaly_detected == true checked" emptyCtx
      = false :=
  ⟨by decide, by decide, rfl⟩

/-- C8 (amended): recognition is by substring containment, not exact match — a
condition containing neither "anomaly_detected == true" nor
"consensus_reached == true" as a substring evaluates to true (fail-open) for
every context, so such a step is never skipped for condition reasons. -/
theorem condition_fail_open_without_known_substring (c : String) (ctx : Ctx)
    (h1 : strContains c "anomaly_detected == true" = false)
    (h2 : strContains c "consensus_reached == true" = false) :
    evaluate_condition c ctx = true := by
  unfold evaluate_condition
  rw [h1, h2]
  rfl

/-- C8 witness: an unrelated condition string evaluates to true. -/
theorem condition_fail_open_without_known_substring_witness :
    evaluate_condition "always" emptyCtx = true :=
  condition_fail_open_without_known_substring "always" emptyCtx rfl rfl

/-- C9 evidence: the executor never reads any step's `timeout` field —
rewriting every timeout to arbitrary values changes nothing about the run, for
every invocation behaviour; no timeout enforcement exists in the executor. -/
theorem executor_ignores_timeouts (f : Invoke) (orch : Option Orchestrator)
    (wf : String) (steps : List WorkflowStep) (trigger : Value)
    (tmod : WorkflowStep → Int) :
    executeWith f orch wf (steps.map fun s => { s with timeout := tmod s }) trigger
      = executeWith f orch wf steps trigger := by
  cases orch with
  | none => rfl
  | some o =>
    have hloop : ∀ (ss : List WorkflowStep) (ctx : Ctx),
        executeLoop f o (ss.map fun s => { s with timeout := tmod s }) ctx
          = executeLoop f o ss ctx := by
      intro ss
      induction ss with
      | nil => intro ctx; rfl
      | cons s rest ih =>
        intro ctx
        have hstep : execute_step f (some o) { s with timeout := tmod s } ctx
            = execute_step f (some o) s ctx := rfl
        simp only [List.map_cons, executeLoop, hstep]
        cases hres : execute_step f (some o) s ctx with
        | error e => rfl
        | ok res =>
          cases hc : should_continue s res with
          | true =>
            have hc' : should_continue { s with timeout := tmod s } res = true := hc
            simp only [hc, hc', if_true]
            exact ih _
          | false =>
            have hc' : should_continue { s with timeout := tmod s } res = false := hc
            simp only [hc, hc']
            rfl
    simp only [executeWith]
    rw [hloop]

theorem findMissingDep_eq_none (deps : List String) (sr : List (String × Value))
    (h : ∀ d ∈ deps, dcontains sr d = true) : findMissingDep deps sr = none := by
  induction deps with
  | nil => rfl
  | cons d rest ih =>
    simp only [findMissingDep, h d (List.mem_cons_self d rest), if_true]
    exact ih fun d' hd' => h d' (List.mem_cons_of_mem d hd')

theorem outbreak_tail_run (o : Orchestrator) (ctxA : Ctx) (v2 : Value)
    (he : execute_step invokeDefault (some o) step_neighbor_consultation ctxA
            = .ok v2)
    (hsc : should_continue step_neighbor_consultation v2 = true) :
    executeLoop invokeDefault o
        (step_neighbor_consultation ::
          [step_collective_reasoning, step_consensus_proposal, step_voting,
           step_quantum_escalation]) ctxA
      = executeLoop invokeDefault o
          [step_collective_reasoning, step_consensus_proposal, step_voting,
           step_quantum_escalation]
          (recordStep ctxA "neighbor_consultation" v2) := by
  simp only [executeLoop, he, hsc, if_true]
  rfl

/-- C10: a dependency is met whenever the prerequisite's name appears among
the recorded outcomes, whatever the outcome's kind; in particular, in a
low-risk run `neighbor_consultation` is recorded as skipped and
`collective_reasoning` nevertheless executes its action, recording parallel
results. -/
theorem dependency_met_by_any_recorded_outcome :
    (∀ (step : WorkflowStep) (ctx : Ctx) (deps : List String),
       step.depends_on = some deps →
       (∀ d ∈ deps, dcontains ctx.step_results d = true) →
       missingDep step ctx = none) ∧
    dlookup (runSR invokeDefault lowRiskOrch "outbreak_detection" outbreak_steps
        (.vStr "trigger")) "neighbor_consultation"
      = some (skipValue "Condition not met: anomaly_detected == true") ∧
    dlookup (runSR invokeDefault lowRiskOrch "outbreak_detection" outbreak_steps
        (.vStr "trigger")) "collective_reasoning"
      = some (.vDict [("parallel_results", .vDict
          [("a1", .vDict [("action", .vStr "reason_about_collective_evidence"),
                          ("status", .vStr "completed")]),
           ("a2", .vDict [("action", .vStr "reason_about_collective_evidence"),
                          ("status", .vStr "completed")])])]) := by
  refine ⟨?_, rfl, rfl⟩
  intro step ctx deps hdeps hall
  unfold missingDep
  rw [hdeps]
  exact findMissingDep_eq_none deps ctx.step_results hall

/-- C10 witness: a skipped prerequisite still satisfies the dependency check
of `collective_reasoning`. -/
theorem dependency_met_by_any_recorded_outcome_witness :
    missingDep step_collective_reasoning
      { workflow := "demo", trigger_data := .vNone,
        step_results := [("neighbor_consultation",
          skipValue "Condition not met: anomaly_detected == true")] } = none :=
  dependency_met_by_any_recorded_outcome.1 step_collective_reasoning
    { workflow := "demo", trigger_data := .vNone,
      step_results := [("neighbor_consultation",
        skipValue "Condition not met: anomaly_detected == true")] }
    ["neighbor_consultation"] rfl (by decide)

/-- C6: in every run of the built-in outbreak_detection workflow over a
non-empty agent set and any trigger, quantum_escalation is recorded as
Skipped with reason "Condition not met: consensus_reached == true"; the
voting step's outcome is a parallel result whose entries are all the fixed
vote payload, its dict has no consensus_reached key, so the consensus
predicate is false and the escalate action is never invoked. -/
theorem quantum_escalation_always_skipped (a0 : String × Agent)
    (rest : List (String × Agent)) (trigger : Value) :
    ∃ sr : List (String × Value),
      execute (some { agents := a0 :: rest }) trigger =
        .vDict [("workflow", .vStr "outbreak_detection"),
                ("trigger_data", trigger), ("step_results", .vDict sr)] ∧
      dlookup sr "quantum_escalation"
        = some (skipValue "Condition not met: consensus_reached == true") ∧
      ∃ votes : List (String × Value),
        dlookup sr "voting" = some (.vDict [("parallel_results", .vDict votes)]) ∧
        (∀ q ∈ votes, q.2 = .vDict [("action", .vStr "vote"),
                                    ("vote", .vStr "approve")]) ∧
        dlookup [("parallel_results", Value.vDict votes)] "consensus_reached"
          = none := by
  refine ⟨runSR invokeDefault { agents := a0 :: rest } "outbreak_detection"
    outbreak_steps trigger, ?_, ?_⟩
  · have h := executeLoop_workflow invokeDefault { agents := a0 :: rest }
      outbreak_steps
      { workflow := "outbreak_detection", trigger_data := trigger,
        step_results := [] }
    simp only [execute, executeWith, ctxToDict, runSR]
    rw [h.1, h.2]
  · have h1 : runSR invokeDefault { agents := a0 :: rest } "outbreak_detection"
        outbreak_steps trigger
        = (executeLoop invokeDefault { agents := a0 :: rest }
            (step_neighbor_consultation ::
              [step_collective_reasoning, step_consensus_proposal, step_voting,
               step_quantum_escalation])
            { workflow := "outbreak_detection", trigger_data := trigger,
              step_results := [("local_analysis", Value.vDict
                [("parallel_results", Value.vDict (runParallel invokeDefault
                  (a0 :: rest) "analyze_symptoms"
                  { workflow := "outbreak_detection", trigger_data := trigger,
                    step_results := [] }))])] }).step_results := rfl
    cases hb : ((runParallel invokeDefault (a0 :: rest) "analyze_symptoms"
        { workflow := "outbreak_detection", trigger_data := trigger,
          step_results := [] }).map Prod.snd).any entryHighRisk with
    | false =>
      have hcb : condBlocks step_neighbor_consultation
          { workflow := "outbreak_detection", trigger_data := trigger,
            step_results := [("local_analysis", Value.vDict
              [("parallel_results", Value.vDict (runParallel invokeDefault
                (a0 :: rest) "analyze_symptoms"
                { workflow := "outbreak_detection", trigger_data := trigger,
                  step_results := [] }))])] } = true := by
        have h0 : condBlocks step_neighbor_consultation
            { workflow := "outbreak_detection", trigger_data := trigger,
              step_results := [("local_analysis", Value.vDict
                [("parallel_results", Value.vDict (runParallel invokeDefault
                  (a0 :: rest) "analyze_symptoms"
                  { workflow := "outbreak_detection", trigger_data := trigger,
                    step_results := [] }))])] }
            = !(((runParallel invokeDefault (a0 :: rest) "analyze_symptoms"
                { workflow := "outbreak_detection", trigger_data := trigger,
                  step_results := [] }).map Prod.snd).any entryHighRisk) := rfl
        rw [h0, hb]
        rfl
      have e2 : execute_step invokeDefault (some { agents := a0 :: rest })
          step_neighbor_consultation
          { workflow := "outbreak_detection", trigger_data := trigger,
            step_results := [("local_analysis", Value.vDict
              [("parallel_results", Value.vDict (runParallel invokeDefault
                (a0 :: rest) "analyze_symptoms"
                { workflow := "outbreak_detection", trigger_data := trigger,
                  step_results := [] }))])] }
          = .ok (skipValue "Condition not met: anomaly_detected == true") := by
        unfold execute_step
        rw [hcb]
        rfl
      rw [h1, outbreak_tail_run { agents := a0 :: rest } _ _ e2 rfl]
      refine ⟨rfl, _, rfl, ?_, rfl⟩
      exact fun q hq => runParallel_values invokeDefault "vote" _
        (fun v => v = .vDict [("action", .vStr "vote"), ("vote", .vStr "approve")])
        (fun p => rfl) (a0 :: rest) q hq
    | true =>
      have hcb : condBlocks step_neighbor_consultation
          { workflow := "outbreak_detection", trigger_data := trigger,
            step_results := [("local_analysis", Value.vDict
              [("parallel_results", Value.vDict (runParallel invokeDefault
                (a0 :: rest) "analyze_symptoms"
                { workflow := "outbreak_detection", trigger_data := trigger,
                  step_results := [] }))])] } = false := by
        have h0 : condBlocks step_neighbor_consultation
            { workflow := "outbreak_detection", trigger_data := trigger,
              step_results := [("local_analysis", Value.vDict
                [("parallel_results", Value.vDict (runParallel invokeDefault
                  (a0 :: rest) "analyze_symptoms"
                  { workflow := "outbreak_detection", trigger_data := trigger,
                    step_results := [] }))])] }
            = !(((runParallel invokeDefault (a0 :: rest) "analyze_symptoms"
                { workflow := "outbreak_detection", trigger_data := trigger,
                  step_results := [] }).map Prod.snd).any entryHighRisk) := rfl
        rw [h0, hb]
        rfl
      have e2 : execute_step invokeDefault (some { agents := a0 :: rest })
          step_neighbor_consultation
          { workflow := "outbreak_detection", trigger_data := trigger,
            step_results := [("local_analysis", Value.vDict
              [("parallel_results", Value.vDict (runParallel invokeDefault
                (a0 :: rest) "analyze_symptoms"
                { workflow := "outbreak_detection", trigger_data := trigger,
                  step_results := [] }))])] }
          = .ok (.vDict [("parallel_results", .vDict (runParallel invokeDefault
              (a0 :: rest) "query_neighbors"
              { workflow := "outbreak_detection", trigger_data := trigger,
                step_results := [("local_analysis", Value.vDict
                  [("parallel_results", Value.vDict (runParallel invokeDefault
                    (a0 :: rest) "analyze_symptoms"
                    { workflow := "outbreak_detection", trigger_data := trigger,
                      step_results := [] }))])] }))]) := by
        unfold execute_step
        rw [hcb]
        rfl
      rw [h1, outbreak_tail_run { agents := a0 :: rest } _ _ e2 rfl]
      refine ⟨rfl, _, rfl, ?_, rfl⟩
      exact fun q hq => runParallel_values invokeDefault "vote" _
        (fun v => v = .vDict [("action", .vStr "vote"), ("vote", .vStr "approve")])
        (fun p => rfl) (a0 :: rest) q hq

end Outbreak
